import Mathlib

/-!
Verification of the SplitEase backend core (group-expense coordination).

The definitions below are a shallow embedding of the expense/group/approval
logic of `src/server.js` (REST handlers) and of the socket handlers in the
`server copy.js` variant.  Mongo ObjectIds are modelled as natural numbers
compared by value (which is exactly what the source's `String(...)`
conversions and Mongoose's casting `includes` realise); absent request-body
fields are modelled as `none` of an `Option` type, mirroring JavaScript
truthiness where the source tests `!field` (for numeric fields, `0` is also
falsy; for strings, `""` is falsy).  Persisted collections are association
lists keyed by id; `save` replaces the binding for the document's id.
-/

namespace SplitEase

/-- Document ids (Mongo ObjectIds, compared by value). -/
abbrev Id := Nat

/-- A `User` document: `deviceName` and the optional `groupId` reference
(`androidId` is only used by the login route, which is outside the claims). -/
structure UserRec where
  deviceName : String
  groupId : Option Id
deriving Repr, DecidableEq

/-- A `Group` document (`GroupSchema` in `src/server.js`). -/
structure Group where
  name : String
  creator : Id
  joinCode : String
  members : List Id
  joinRequests : List Id
deriving Repr, DecidableEq

/-- An `Expense` document (`ExpenseSchema` in `src/server.js`). -/
structure Expense where
  groupId : Id
  addedBy : Id
  description : String
  amount : Int
  approvals : List Id
  approved : Bool
deriving Repr, DecidableEq

/-- The persistent store: the three Mongo collections, keyed by id. -/
structure ServerState where
  users : List (Id × UserRec)
  groups : List (Id × Group)
  expenses : List (Id × Expense)
deriving Repr, DecidableEq

/-- Mongoose `Model.findById`: first binding with the given key. -/
def findById {α : Type} (i : Id) : List (Id × α) → Option α
  | [] => none
  | (j, a) :: rest => if j = i then some a else findById i rest

/-- Mongoose `doc.save()`: replace every binding of the document's id by the new value. -/
def saveById {α : Type} (i : Id) (a : α) (l : List (Id × α)) : List (Id × α) :=
  l.map (fun p => if p.1 = i then (i, a) else p)

/-- Mongoose `Group.findOne` by join code: first group whose `joinCode` matches. -/
def findByJoinCode (c : String) : List (Id × Group) → Option (Id × Group)
  | [] => none
  | (j, g) :: rest => if g.joinCode = c then some (j, g) else findByJoinCode c rest

/-- Helper `approvalThreshold` of `src/server.js` lines 72-74:
`Math.floor(memberCount / 2) + 1` (natural-number division floors). -/
def approvalThreshold (memberCount : Nat) : Nat :=
  memberCount / 2 + 1

/-- HTTP failure responses the handlers produce: 400, 404, 409, 500.
`conflict` (409) is never produced by any handler of the source; it is
included so that "never surfaced as Conflict" is expressible. -/
inductive HttpError
  | badRequest (msg : String)
  | notFound (msg : String)
  | conflict (msg : String)
  | serverError (msg : String)
deriving Repr, DecidableEq

/-- The spec's error taxonomy. -/
inductive ErrorKind
  | notFound
  | invalidArgument
  | conflict
  | storageUnavailable
deriving Repr, DecidableEq

/-- The correspondence between the source's HTTP statuses and the spec's
taxonomy: 400 ↦ InvalidArgument, 404 ↦ NotFound, 409 ↦ Conflict,
500 (the catch-all "Server error") ↦ StorageUnavailable. -/
def HttpError.kind : HttpError → ErrorKind
  | .badRequest _ => .invalidArgument
  | .notFound _ => .notFound
  | .conflict _ => .conflict
  | .serverError _ => .storageUnavailable

/-- A JavaScript exception raised inside a handler body (before the
enclosing `try/catch` turns it into a 500 "Server error" response). -/
inductive JsError
  | typeError (msg : String)
deriving Repr, DecidableEq

/-- Handler for `POST /expenses` (`src/server.js` lines 235-258): guard
`!groupId || !addedBy || !amount` (so an absent field — or `amount = 0`,
which is falsy — yields 400), then create the expense with
`approvals: [], approved: false` and save it. -/
def submitExpense (s : ServerState) (groupId addedBy : Option Id)
    (description : Option String) (amount : Option Int) (newId : Id) :
    Except HttpError Expense × ServerState :=
  match groupId, addedBy, amount with
  | some gid, some uid, some a =>
    if a = 0 then
      (.error (.badRequest "Missing required fields"), s)
    else
      let e : Expense :=
        { groupId := gid, addedBy := uid, description := description.getD "",
          amount := a, approvals := [], approved := false }
      (.ok e, { s with expenses := s.expenses ++ [(newId, e)] })
  | _, _, _ => (.error (.badRequest "Missing required fields"), s)

/-- Body of `POST /expenses/approve` (`src/server.js` lines 261-289), before
the `try/catch`: guard on missing fields, 404 when the expense is missing,
push `userId` unless `expense.approvals.map(String).includes(String(userId))`
(value comparison of ids, i.e. `List.contains`), then look up the owning
group — when that group record is missing, `group.members` is a property
access on `null` and raises a `TypeError` — compute the threshold from the
group's current member count, set `approved` when
`approvals.length >= threshold`, and save. -/
def castApprovalBody (s : ServerState) (expenseId userId : Option Id) :
    Except JsError (Except HttpError Expense × ServerState) :=
  match expenseId, userId with
  | some eid, some uid =>
    match findById eid s.expenses with
    | none => .ok (.error (.notFound "Expense not found"), s)
    | some e0 =>
      let e1 := if e0.approvals.contains uid then e0
                else { e0 with approvals := e0.approvals ++ [uid] }
      match findById e1.groupId s.groups with
      | none => .error (.typeError "Cannot read properties of null reading members")
      | some g =>
        let e2 := if e1.approvals.length ≥ approvalThreshold g.members.length
                  then { e1 with approved := true } else e1
        .ok (.ok e2, { s with expenses := saveById eid e2 s.expenses })
  | _, _ => .ok (.error (.badRequest "Missing expenseId or userId"), s)

/-- Handler for `POST /expenses/approve` with its `try/catch`: any exception in the body
becomes a 500 "Server error" response (nothing was saved before the only
throwing point, so the store is unchanged). -/
def castApproval (s : ServerState) (expenseId userId : Option Id) :
    Except HttpError Expense × ServerState :=
  match castApprovalBody s expenseId userId with
  | .ok r => r
  | .error _ => (.error (.serverError "Server error"), s)

/-- Handler for `POST /groups/join` (`src/server.js` lines 166-192): guard
`!joinCode || !userId` (an empty join code is falsy), 404 when no group has
the code or the user is unknown, and push to `joinRequests` only when the
user is in neither `members` nor `joinRequests`. -/
def requestJoin (s : ServerState) (joinCode : Option String) (userId : Option Id) :
    Except HttpError Unit × ServerState :=
  match joinCode, userId with
  | some jc, some uid =>
    if jc = "" then (.error (.badRequest "Missing joinCode or userId"), s)
    else
      match findByJoinCode jc s.groups with
      | none => (.error (.notFound "Group not found"), s)
      | some (gid, g) =>
        match findById uid s.users with
        | none => (.error (.notFound "User not found"), s)
        | some _ =>
          if !(g.members.contains uid) && !(g.joinRequests.contains uid) then
            (.ok (),
             { s with groups :=
                saveById gid { g with joinRequests := g.joinRequests ++ [uid] } s.groups })
          else (.ok (), s)
  | _, _ => (.error (.badRequest "Missing joinCode or userId"), s)

/-- Handler for `POST /groups/approve-join` (`src/server.js` lines 195-213): 404 when the
group is missing; push `userId` to `members` unless already present; then
unconditionally remove every occurrence of `userId` from `joinRequests`
(`filter(u => String(u) !== String(userId))`); save.  The route has no
missing-field guard, so `userId` is modelled as a present id. -/
def approveJoin (s : ServerState) (groupId : Option Id) (userId : Id) :
    Except HttpError Unit × ServerState :=
  match groupId with
  | none => (.error (.notFound "Group not found"), s)
  | some gid =>
    match findById gid s.groups with
    | none => (.error (.notFound "Group not found"), s)
    | some g0 =>
      let g1 := if g0.members.contains userId then g0
                else { g0 with members := g0.members ++ [userId] }
      let g2 := { g1 with joinRequests := g1.joinRequests.filter (fun u => u != userId) }
      (.ok (), { s with groups := saveById gid g2 s.groups })

/-- Handler for `POST /groups` (`src/server.js` lines 138-162): guard `!name || !userId`,
404 when the owner is unknown, then a SINGLE `uuidv4().slice(0,8)` join-code
generation — modelled by `codes 0`, with `codes` the stream of candidates the
generator would produce — followed by `group.save()`.  The schema's unique
index on `joinCode` makes the save throw on a collision with an existing
group's code, which the `try/catch` surfaces as a 500 "Server error"; there
is no retry loop, so later candidates `codes 1`, `codes 2`, … are never
consulted.  On success the creator is the sole member and the owner's
`groupId` is set. -/
def createGroup (s : ServerState) (name : Option String) (userId : Option Id)
    (codes : Nat → String) (newGroupId : Id) :
    Except HttpError Group × ServerState :=
  match name, userId with
  | some nm, some uid =>
    if nm = "" then (.error (.badRequest "Missing group name or userId"), s)
    else
      match findById uid s.users with
      | none => (.error (.notFound "User not found"), s)
      | some u =>
        let joinCode := codes 0
        if s.groups.any (fun p => p.2.joinCode = joinCode) then
          (.error (.serverError "Server error"), s)
        else
          let g : Group := { name := nm, creator := uid, joinCode := joinCode,
                             members := [uid], joinRequests := [] }
          (.ok g,
           { s with
             groups := s.groups ++ [(newGroupId, g)],
             users := saveById uid { u with groupId := some newGroupId } s.users })
  | _, _ => (.error (.badRequest "Missing group name or userId"), s)

/-- Events emitted to the group's room by the socket handlers of
`server copy.js`, plus the per-socket `error` event. -/
inductive Event
  | expenseUpdated (gid eid : Id)
  | expenseApproved (gid eid : Id)
  | errorEvt (msg : String)
deriving Repr, DecidableEq

/-- The `approveExpense` socket handler (`server copy.js` lines 208-246):
an absent field returns silently; a missing expense emits `error`; a
duplicate approval returns silently ("ignore duplicate approval"); otherwise
push, recompute `approved` against the group's current member count, save,
emit `expenseUpdated`, and — whenever the saved expense's `approved` flag is
true (`if (populated.approved)`) — also emit `expenseApproved`. -/
def approveExpenseSocket (s : ServerState) (expenseId userId : Option Id) :
    ServerState × List Event :=
  match expenseId, userId with
  | some eid, some uid =>
    match findById eid s.expenses with
    | none => (s, [.errorEvt "Expense not found"])
    | some e0 =>
      if e0.approvals.contains uid then (s, [])
      else
        let e1 := { e0 with approvals := e0.approvals ++ [uid] }
        match findById e1.groupId s.groups with
        | none => (s, [.errorEvt "Could not approve expense"])
        | some g =>
          let e2 := if e1.approvals.length ≥ approvalThreshold g.members.length
                    then { e1 with approved := true } else e1
          ({ s with expenses := saveById eid e2 s.expenses },
           .expenseUpdated e2.groupId eid ::
             (if e2.approved then [.expenseApproved e2.groupId eid] else []))
  | _, _ => (s, [])

/-- A sequence of `approveExpense` socket calls on one expense, collecting
all emitted events in order. -/
def runApprovals (s : ServerState) (eid : Id) : List Id → ServerState × List Event
  | [] => (s, [])
  | u :: rest =>
    let r1 := approveExpenseSocket s (some eid) (some u)
    let r2 := runApprovals r1.1 eid rest
    (r2.1, r1.2 ++ r2.2)

/-- Number of `expenseApproved` emissions in an event trace. -/
def countApprovedEvents : List Event → Nat
  | [] => 0
  | .expenseApproved _ _ :: rest => countApprovedEvents rest + 1
  | _ :: rest => countApprovedEvents rest

/-- One client-triggered operation of the core (REST handlers of
`src/server.js` plus the approval socket handler). -/
inductive Op
  | createGroupOp (name : Option String) (userId : Option Id)
      (codes : Nat → String) (newGroupId : Id)
  | requestJoinOp (joinCode : Option String) (userId : Option Id)
  | approveJoinOp (groupId : Option Id) (userId : Id)
  | submitExpenseOp (groupId addedBy : Option Id) (description : Option String)
      (amount : Option Int) (newId : Id)
  | castApprovalOp (expenseId userId : Option Id)
  | approveExpenseSocketOp (expenseId userId : Option Id)

/-- The store after one operation. -/
def applyOp (s : ServerState) : Op → ServerState
  | .createGroupOp n u c g => (createGroup s n u c g).2
  | .requestJoinOp jc u => (requestJoin s jc u).2
  | .approveJoinOp g u => (approveJoin s g u).2
  | .submitExpenseOp g a d am n => (submitExpense s g a d am n).2
  | .castApprovalOp e u => (castApproval s e u).2
  | .approveExpenseSocketOp e u => (approveExpenseSocket s e u).1

/-- A three-member group used by the concrete scenarios below. -/
def wGroup3 : Group :=
  { name := "trip", creator := 1, joinCode := "CODE1234",
    members := [1, 2, 3], joinRequests := [] }

/-- A fresh expense of `wGroup3` (no approvals yet). -/
def wExpense : Expense :=
  { groupId := 20, addedBy := 1, description := "dinner", amount := 45,
    approvals := [], approved := false }

/-- Store with three users, the three-member group `20` and expense `30`. -/
def wState3 : ServerState :=
  { users := [(1, ⟨"a", some 20⟩), (2, ⟨"b", some 20⟩), (3, ⟨"c", some 20⟩)],
    groups := [(20, wGroup3)],
    expenses := [(30, wExpense)] }

/-- A join-code candidate stream whose first candidate collides with
`wGroup3.joinCode` and whose second is fresh. -/
def wColl : Nat → String :=
  fun n => if n = 0 then "CODE1234" else "FRESH999"

/-- Store holding expense `30` whose owning group record is missing. -/
def wStateDangling : ServerState :=
  { users := [], groups := [], expenses := [(30, wExpense)] }

/-- A one-member group (member `2` only). -/
def wGroupSolo : Group :=
  { name := "solo", creator := 2, joinCode := "SOLO0001",
    members := [2], joinRequests := [] }

/-- Expense submitted for group `21` by user `1`, who is not a member there. -/
def wExpenseTaxi : Expense :=
  { groupId := 21, addedBy := 1, description := "taxi", amount := 12,
    approvals := [], approved := false }

/-- Store where user `1` exists, submitted expense `31` for group `21`, but
is not a member of that group. -/
def wStateOutsider : ServerState :=
  { users := [(1, ⟨"a", none⟩), (2, ⟨"b", some 21⟩)],
    groups := [(21, wGroupSolo)],
    expenses := [(31, wExpenseTaxi)] }

/-- Group `22` with member `1` and pending join request from `2`. -/
def wGroupPending : Group :=
  { name := "pend", creator := 1, joinCode := "JOIN0001",
    members := [1], joinRequests := [2] }

/-- Store for the join-request scenarios: users `1`, `2`, `3`; group `22`. -/
def wStateJoin : ServerState :=
  { users := [(1, ⟨"a", some 22⟩), (2, ⟨"b", none⟩), (3, ⟨"c", none⟩)],
    groups := [(22, wGroupPending)],
    expenses := [] }

/-- Expense `30` once the approvals `[1, 2]` have met the threshold of the
three-member group `20`. -/
def wExpenseApproved : Expense :=
  { wExpense with approvals := [1, 2], approved := true }

/-- Store whose expense `30` is already approved (approvals `[1, 2]` met the
threshold of the three-member group `20`). -/
def wStateApproved : ServerState :=
  { users := [(1, ⟨"a", some 20⟩), (2, ⟨"b", some 20⟩), (3, ⟨"c", some 20⟩)],
    groups := [(20, wGroup3)],
    expenses := [(30, wExpenseApproved)] }

/-- The HTTP failure (if any) an operation responds with; the socket
handler produces no HTTP response. -/
def opError (s : ServerState) : Op → Option HttpError
  | .createGroupOp n u c g =>
    match (createGroup s n u c g).1 with | .ok _ => none | .error e => some e
  | .requestJoinOp jc u =>
    match (requestJoin s jc u).1 with | .ok _ => none | .error e => some e
  | .approveJoinOp g u =>
    match (approveJoin s g u).1 with | .ok _ => none | .error e => some e
  | .submitExpenseOp g a d am n =>
    match (submitExpense s g a d am n).1 with | .ok _ => none | .error e => some e
  | .castApprovalOp e u =>
    match (castApproval s e u).1 with | .ok _ => none | .error e => some e
  | .approveExpenseSocketOp _ _ => none

end SplitEase

open SplitEase

/-- C1: for every member count N ≥ 1 the helper `approvalThreshold` returns
`floor(N/2) + 1`, which is a strict majority (twice the threshold exceeds N,
and any smaller count is not a majority), and in particular it maps
1 ↦ 1, 2 ↦ 2, 3 ↦ 2, 4 ↦ 3 and 5 ↦ 3. -/
theorem approvalThreshold_majority (n : Nat) (h : 1 ≤ n) :
    approvalThreshold n = n / 2 + 1 ∧
    n < 2 * approvalThreshold n ∧
    2 * (approvalThreshold n - 1) ≤ n ∧
    approvalThreshold 1 = 1 ∧ approvalThreshold 2 = 2 ∧ approvalThreshold 3 = 2 ∧
    approvalThreshold 4 = 3 ∧ approvalThreshold 5 = 3 := by
  unfold approvalThreshold
  omega

/-- Witness for C1 at N = 5. -/
theorem approvalThreshold_majority_witness :
    approvalThreshold 5 = 5 / 2 + 1 ∧
    5 < 2 * approvalThreshold 5 ∧
    2 * (approvalThreshold 5 - 1) ≤ 5 ∧
    approvalThreshold 1 = 1 ∧ approvalThreshold 2 = 2 ∧ approvalThreshold 3 = 2 ∧
    approvalThreshold 4 = 3 ∧ approvalThreshold 5 = 3 :=
  approvalThreshold_majority 5 (by decide)

/-- Reading back the id just saved returns the saved document (when the id
was present at all). -/
theorem findById_saveById_self {α : Type} (i : Id) (a : α) (l : List (Id × α)) :
    findById i (saveById i a l) = (findById i l).map (fun _ => a) := by
  induction l with
  | nil => rfl
  | cons p rest ih =>
    obtain ⟨j, b⟩ := p
    simp only [saveById, List.map_cons] at *
    by_cases hj : j = i
    · subst hj
      rw [if_pos rfl]
      simp [findById]
    · rw [if_neg hj]
      simp only [findById]
      rw [if_neg hj, if_neg hj]
      exact ih

/-- Saving one document leaves every other id's lookup unchanged. -/
theorem findById_saveById_ne {α : Type} (i k : Id) (a : α) (l : List (Id × α))
    (h : k ≠ i) :
    findById k (saveById i a l) = findById k l := by
  induction l with
  | nil => rfl
  | cons p rest ih =>
    obtain ⟨j, b⟩ := p
    simp only [saveById, List.map_cons] at *
    by_cases hj : j = i
    · subst hj
      rw [if_pos rfl]
      simp only [findById]
      rw [if_neg (Ne.symm h), if_neg (Ne.symm h)]
      exact ih
    · rw [if_neg hj]
      simp only [findById]
      by_cases hk : j = k
      · rw [if_pos hk, if_pos hk]
      · rw [if_neg hk, if_neg hk]
        exact ih

/-- Saving twice under the same id equals saving the last value once. -/
theorem saveById_saveById {α : Type} (i : Id) (a b : α) (l : List (Id × α)) :
    saveById i a (saveById i b l) = saveById i a l := by
  unfold saveById
  rw [List.map_map]
  refine List.map_congr_left ?_
  intro p _
  by_cases hp : p.1 = i
  · simp [hp]
  · simp [hp]

/-- Appending new documents does not change an id's existing lookup. -/
theorem findById_append_of_some {α : Type} (i : Id) (a : α) (l l2 : List (Id × α))
    (h : findById i l = some a) : findById i (l ++ l2) = some a := by
  induction l with
  | nil => simp [findById] at h
  | cons p rest ih =>
    obtain ⟨j, b⟩ := p
    simp only [List.cons_append, findById] at h ⊢
    by_cases hj : j = i
    · rw [if_pos hj] at h ⊢
      exact h
    · rw [if_neg hj] at h ⊢
      exact ih h

/-- C6 counterexample: with groupId and addedBy present, the negative amount
-5 passes the guard (only falsy amounts are rejected) and submitExpense
answers with a success value holding a negative-amount expense, instead of
failing with InvalidArgument as the claim requires for every negative
amount. -/
theorem submitExpense_negative_accepted_counterexample :
    (submitExpense wState3 (some 20) (some 1) none (some (-5)) 99).1
      = .ok { groupId := 20, addedBy := 1, description := "", amount := -5,
              approvals := [], approved := false }
    ∧ (-5 : Int) < 0 :=
  ⟨rfl, by decide⟩

/-- C6 (amended): submitExpense fails with InvalidArgument (400) exactly when
groupId, addedBy, or amount is absent, or amount is 0 (the falsy values of
the source's guard); every nonzero amount — negative amounts included — is
accepted; on success the created expense carries an empty approval set and
approved = false. -/
theorem submitExpense_validation (s : ServerState) (groupId addedBy : Option Id)
    (d : Option String) (amount : Option Int) (newId : Id) :
    ((groupId = none ∨ addedBy = none ∨ amount = none ∨ amount = some 0) →
      submitExpense s groupId addedBy d amount newId
        = (.error (.badRequest "Missing required fields"), s))
  ∧ (∀ gid uid a, groupId = some gid → addedBy = some uid → amount = some a →
      a ≠ 0 →
      submitExpense s groupId addedBy d amount newId
        = (.ok { groupId := gid, addedBy := uid, description := d.getD "",
                 amount := a, approvals := [], approved := false },
           { s with expenses := s.expenses ++
              [(newId, { groupId := gid, addedBy := uid,
                         description := d.getD "", amount := a,
                         approvals := [], approved := false })] })) := by
  constructor
  · intro h
    rcases groupId with _ | gid
    · rfl
    · rcases addedBy with _ | uid
      · rfl
      · rcases amount with _ | a
        · rfl
        · have ha : a = 0 := by
            rcases h with h | h | h | h
            · exact absurd h (by simp)
            · exact absurd h (by simp)
            · exact absurd h (by simp)
            · exact Option.some.inj h
          subst ha
          simp [submitExpense]
  · intro gid uid a h1 h2 h3 h4
    subst h1
    subst h2
    subst h3
    simp [submitExpense, h4]

/-- Witness for the amended C6 at concrete inputs: an absent groupId yields
the 400 response, and amount 7 with all fields present succeeds with an
empty approval set and approved = false. -/
theorem submitExpense_validation_witness :
    (submitExpense wState3 none (some 1) none (some 7) 99
       = (.error (.badRequest "Missing required fields"), wState3))
  ∧ (submitExpense wState3 (some 20) (some 1) none (some 7) 99
       = (.ok { groupId := 20, addedBy := 1, description := "", amount := 7,
                approvals := [], approved := false },
          { wState3 with expenses := wState3.expenses ++
             [(99, { groupId := 20, addedBy := 1, description := "",
                     amount := 7, approvals := [], approved := false })] })) :=
  ⟨(submitExpense_validation wState3 none (some 1) none (some 7) 99).1 (Or.inl rfl),
   (submitExpense_validation wState3 (some 20) (some 1) none (some 7) 99).2
     20 1 7 rfl rfl rfl (by decide)⟩

/-- C7 counterexample: in a store whose only group already uses join code
CODE1234, a candidate stream whose first candidate is CODE1234 and whose
second is the fresh FRESH999 makes createGroup answer 500 "Server error" —
no internal retry ever consults the second candidate, although a run whose
generation yields FRESH999 succeeds. -/
theorem createGroup_no_retry_counterexample :
    (createGroup wState3 (some "alps") (some 1) wColl 40).1
      = .error (.serverError "Server error")
    ∧ wColl 0 = "CODE1234" ∧ wGroup3.joinCode = "CODE1234"
    ∧ wColl 1 = "FRESH999"
    ∧ (createGroup wState3 (some "alps") (some 1) (fun _ => "FRESH999") 40).1
      = .ok { name := "alps", creator := 1, joinCode := "FRESH999",
              members := [1], joinRequests := [] } :=
  ⟨rfl, rfl, rfl, rfl, rfl⟩

/-- C7 (amended): createGroup generates a join code once, with no retry: its
outcome depends only on the first candidate of the generation stream; when
that candidate collides with the join code of an existing group the unique-index
save failure surfaces as 500 "Server error" (StorageUnavailable), and no
outcome is ever the Conflict (409) response. -/
theorem createGroup_single_attempt (s : ServerState) (nm : String) (uid : Id)
    (u : UserRec) (codes codes2 : Nat → String) (newGroupId : Id)
    (hnm : nm ≠ "") (hu : findById uid s.users = some u)
    (hsame : codes 0 = codes2 0) :
    createGroup s (some nm) (some uid) codes newGroupId
      = createGroup s (some nm) (some uid) codes2 newGroupId
  ∧ (s.groups.any (fun p => p.2.joinCode = codes 0) = true →
      createGroup s (some nm) (some uid) codes newGroupId
        = (.error (.serverError "Server error"), s))
  ∧ (∀ msg, (createGroup s (some nm) (some uid) codes newGroupId).1
        ≠ .error (.conflict msg)) := by
  refine ⟨?_, ?_, ?_⟩
  · simp only [createGroup, hu, hnm, if_neg hnm, hsame]
  · intro hcoll
    simp [createGroup, hu, hnm, hcoll]
  · intro msg
    by_cases hcoll : s.groups.any (fun p => p.2.joinCode = codes 0) = true
    · simp [createGroup, hu, hnm, hcoll]
    · simp [createGroup, hu, hnm, hcoll]

/-- Witness for the amended C7 at the concrete colliding stream. -/
theorem createGroup_single_attempt_witness :
    (createGroup wState3 (some "alps") (some 1) wColl 40
       = createGroup wState3 (some "alps") (some 1) (fun _ => "CODE1234") 40)
  ∧ (createGroup wState3 (some "alps") (some 1) wColl 40
       = (.error (.serverError "Server error"), wState3))
  ∧ ((createGroup wState3 (some "alps") (some 1) wColl 40).1
       ≠ .error (.conflict "duplicate key")) :=
  ⟨(createGroup_single_attempt wState3 "alps" 1 ⟨"a", some 20⟩ wColl
      (fun _ => "CODE1234") 40 (by decide) (by decide) rfl).1,
   (createGroup_single_attempt wState3 "alps" 1 ⟨"a", some 20⟩ wColl
      (fun _ => "CODE1234") 40 (by decide) (by decide) rfl).2.1 (by decide),
   (createGroup_single_attempt wState3 "alps" 1 ⟨"a", some 20⟩ wColl
      (fun _ => "CODE1234") 40 (by decide) (by decide) rfl).2.2 "duplicate key"⟩

/-- C2 counterexample: in the three-member group, the casts by users 1 and 2
flip approved to true and emit expenseApproved once, but extending the same
sequence with the third distinct approver emits expenseApproved AGAIN (two
emissions in total), refuting "emitted exactly once, never re-emitted after
approved is already true". -/
theorem expenseApproved_refired_counterexample :
    countApprovedEvents (runApprovals wState3 30 [1, 2]).2 = 1
    ∧ countApprovedEvents (runApprovals wState3 30 [1, 2, 3]).2 = 2 :=
  ⟨rfl, rfl⟩

/-- Filtering out an id leaves a list that does not contain it. -/
theorem contains_filter_ne (l : List Id) (uid : Id) :
    (l.filter (fun u => u != uid)).contains uid = false := by
  simp [List.contains]

/-- Pushing an id onto a list makes the list contain it. -/
theorem contains_append_singleton_self (l : List Id) (u : Id) :
    (l ++ [u]).contains u = true := by
  simp [List.contains]

/-- C5: whenever the group exists (with the member list holding the user at
most once, as every store reachable by the guarded pushes does), approveJoin
succeeds, afterwards the user appears exactly once in the member list, and
the user is absent from the join-request set; this holds whether the user
was previously a member, a pending requester, or neither, because removal
from join-requests is the unconditional filter. -/
theorem approveJoin_member_exclusive (s : ServerState) (gid uid : Id) (g : Group)
    (hg : findById gid s.groups = some g) (hcount : g.members.count uid ≤ 1) :
    ∃ g2, findById gid (approveJoin s (some gid) uid).2.groups = some g2
      ∧ g2.members.count uid = 1
      ∧ g2.joinRequests.contains uid = false
      ∧ (approveJoin s (some gid) uid).1 = .ok () := by
  by_cases hmem : g.members.contains uid = true
  · have hin : uid ∈ g.members := by simpa [List.contains] using hmem
    have happ : approveJoin s (some gid) uid
        = (.ok (), { s with groups := (saveById gid
            { g with joinRequests := g.joinRequests.filter (fun u => u != uid) }
            s.groups) }) := by
      simp [approveJoin, hg, hin]
    refine Exists.intro { g with joinRequests := g.joinRequests.filter (fun u => u != uid) } ⟨?_, ?_, ?_, ?_⟩
    · rw [happ]
      show findById gid (saveById gid _ s.groups) = _
      rw [findById_saveById_self, hg]
      rfl
    · have hpos : 0 < g.members.count uid := List.count_pos_iff.mpr hin
      show g.members.count uid = 1
      omega
    · exact contains_filter_ne _ _
    · rw [happ]
  · have hout : uid ∉ g.members := by simpa [List.contains] using hmem
    have happ : approveJoin s (some gid) uid
        = (.ok (), { s with groups := (saveById gid
            { g with members := g.members ++ [uid],
                     joinRequests := g.joinRequests.filter (fun u => u != uid) }
            s.groups) }) := by
      simp [approveJoin, hg, hout]
    refine Exists.intro { g with members := g.members ++ [uid], joinRequests := g.joinRequests.filter (fun u => u != uid) } ⟨?_, ?_, ?_, ?_⟩
    · rw [happ]
      show findById gid (saveById gid _ s.groups) = _
      rw [findById_saveById_self, hg]
      rfl
    · show (g.members ++ [uid]).count uid = 1
      rw [List.count_append, List.count_eq_zero.mpr hout, List.count_singleton_self]
    · exact contains_filter_ne _ _
    · rw [happ]

/-- Witness for C5: approving the pending requester 2 into group 22 makes 2
a member exactly once and clears the join request. -/
theorem approveJoin_member_exclusive_witness :
    ∃ g2, findById 22 (approveJoin wStateJoin (some 22) 2).2.groups = some g2
      ∧ g2.members.count 2 = 1
      ∧ g2.joinRequests.contains 2 = false
      ∧ (approveJoin wStateJoin (some 22) 2).1 = .ok () :=
  approveJoin_member_exclusive wStateJoin 22 2 wGroupPending (by decide) (by decide)

/-- C8: requestJoin answers 404 NotFound when no group carries the join code
or the user id is unknown; when the user is already a member or already has
a pending request it answers success and leaves the store — in particular
the join-request set — unchanged, an idempotent no-op rather than an error;
otherwise it appends the user to the join-request set. -/
theorem requestJoin_spec (s : ServerState) (jc : String) (uid : Id)
    (hjc : jc ≠ "") :
    (findByJoinCode jc s.groups = none →
      requestJoin s (some jc) (some uid)
        = (.error (.notFound "Group not found"), s))
  ∧ (∀ gid g, findByJoinCode jc s.groups = some (gid, g) →
      findById uid s.users = none →
      requestJoin s (some jc) (some uid)
        = (.error (.notFound "User not found"), s))
  ∧ (∀ gid g u, findByJoinCode jc s.groups = some (gid, g) →
      findById uid s.users = some u →
      (g.members.contains uid = true ∨ g.joinRequests.contains uid = true) →
      requestJoin s (some jc) (some uid) = (.ok (), s))
  ∧ (∀ gid g u, findByJoinCode jc s.groups = some (gid, g) →
      findById uid s.users = some u →
      g.members.contains uid = false → g.joinRequests.contains uid = false →
      requestJoin s (some jc) (some uid)
        = (.ok (), { s with groups :=
            (saveById gid { g with joinRequests := g.joinRequests ++ [uid] }
              s.groups) })) := by
  refine ⟨?_, ?_, ?_, ?_⟩
  · intro h
    simp [requestJoin, hjc, h]
  · intro gid g h1 h2
    simp [requestJoin, hjc, h1, h2]
  · intro gid g u h1 h2 h3
    rcases h3 with h3 | h3
    · have hmem : uid ∈ g.members := by simpa [List.contains] using h3
      simp [requestJoin, hjc, h1, h2, hmem]
    · have hreq : uid ∈ g.joinRequests := by simpa [List.contains] using h3
      simp [requestJoin, hjc, h1, h2, hreq]
  · intro gid g u h1 h2 h3 h4
    have hmem : uid ∉ g.members := by simpa [List.contains] using h3
    have hreq : uid ∉ g.joinRequests := by simpa [List.contains] using h4
    simp [requestJoin, hjc, h1, h2, hmem, hreq]

/-- Witness for C8, one concrete instance per branch: unknown code 404,
unknown user 404, pending requester no-op, fresh requester appended. -/
theorem requestJoin_spec_witness :
    (requestJoin wStateJoin (some "NOPE0000") (some 2)
       = (.error (.notFound "Group not found"), wStateJoin))
  ∧ (requestJoin wStateJoin (some "JOIN0001") (some 99)
       = (.error (.notFound "User not found"), wStateJoin))
  ∧ (requestJoin wStateJoin (some "JOIN0001") (some 2) = (.ok (), wStateJoin))
  ∧ (requestJoin wStateJoin (some "JOIN0001") (some 3)
       = (.ok (), { wStateJoin with groups :=
           (saveById 22 { wGroupPending with
             joinRequests := wGroupPending.joinRequests ++ [3] }
             wStateJoin.groups) })) :=
  ⟨(requestJoin_spec wStateJoin "NOPE0000" 2 (by decide)).1 (by decide),
   (requestJoin_spec wStateJoin "JOIN0001" 99 (by decide)).2.1
      22 wGroupPending (by decide) (by decide),
   (requestJoin_spec wStateJoin "JOIN0001" 2 (by decide)).2.2.1
      22 wGroupPending ⟨"b", none⟩ (by decide) (by decide) (Or.inr (by decide)),
   (requestJoin_spec wStateJoin "JOIN0001" 3 (by decide)).2.2.2
      22 wGroupPending ⟨"c", none⟩ (by decide) (by decide) (by decide) (by decide)⟩

/-- C10: castApproval performs no membership check on the approving user —
for any existing user id not already in the approval set, whether or not
that user is a member of the owning group and even when the user is the
submitter of the expense, the approval is appended to the approval set and
counts toward the majority threshold exactly like any other approval: the
resulting approved flag is determined only by the new approval count against
the group's member count. -/
theorem castApproval_no_membership_check (s : ServerState) (eid uid : Id)
    (e : Expense) (g : Group)
    (huser : (findById uid s.users).isSome = true)
    (hfind : findById eid s.expenses = some e)
    (hdup : e.approvals.contains uid = false)
    (hg : findById e.groupId s.groups = some g) :
    ∃ e2, castApproval s (some eid) (some uid)
        = (.ok e2, { s with expenses := saveById eid e2 s.expenses })
      ∧ e2.approvals = e.approvals ++ [uid]
      ∧ e2.approved
          = (e.approved
             || decide (e.approvals.length + 1
                  ≥ approvalThreshold g.members.length)) := by
  have hout : uid ∉ e.approvals := by simpa [List.contains] using hdup
  by_cases hthr : e.approvals.length + 1 ≥ approvalThreshold g.members.length
  · refine Exists.intro { e with approvals := e.approvals ++ [uid], approved := true } ⟨?_, rfl, ?_⟩
    · simp [castApproval, castApprovalBody, hfind, hout, hg, hthr]
    · simp [hthr]
  · refine Exists.intro { e with approvals := e.approvals ++ [uid] } ⟨?_, rfl, ?_⟩
    · simp [castApproval, castApprovalBody, hfind, hout, hg, hthr]
    · simp [hthr]

/-- Witness for C10: user 1 exists, submitted expense 31 itself, is not a
member of group 21, yet the cast is recorded and (one-member group,
threshold 1) flips approved. -/
theorem castApproval_no_membership_check_witness :
    wGroupSolo.members.contains 1 = false ∧ wExpenseTaxi.addedBy = 1
    ∧ (∃ e2, castApproval wStateOutsider (some 31) (some 1)
        = (.ok e2, { wStateOutsider with
            expenses := saveById 31 e2 wStateOutsider.expenses })
      ∧ e2.approvals = wExpenseTaxi.approvals ++ [1]
      ∧ e2.approved
          = (wExpenseTaxi.approved
             || decide (wExpenseTaxi.approvals.length + 1
                  ≥ approvalThreshold wGroupSolo.members.length))) :=
  ⟨by decide, by decide,
   castApproval_no_membership_check wStateOutsider 31 1 wExpenseTaxi wGroupSolo
     (by decide) (by decide) (by decide) (by decide)⟩

/-- C2 (amended): per cast, the approveExpense socket handler emits
expenseApproved exactly when the approving user is not already in the
approval set and the post-cast approved flag is true — so it fires once at
the false-to-true transition and again at every later cast by a new
approver, while duplicate casts and below-threshold casts emit nothing. -/
theorem expenseApproved_emission (s : ServerState) (eid uid : Id)
    (e : Expense) (g : Group)
    (hfind : findById eid s.expenses = some e)
    (hg : findById e.groupId s.groups = some g) :
    countApprovedEvents (approveExpenseSocket s (some eid) (some uid)).2
      = if e.approvals.contains uid then 0
        else if e.approved
               || decide (e.approvals.length + 1
                    ≥ approvalThreshold g.members.length)
             then 1 else 0 := by
  by_cases hdup : e.approvals.contains uid = true
  · have hin : uid ∈ e.approvals := by simpa [List.contains] using hdup
    simp [approveExpenseSocket, hfind, hin, countApprovedEvents]
  · have hout : uid ∉ e.approvals := by simpa [List.contains] using hdup
    by_cases hthr : e.approvals.length + 1 ≥ approvalThreshold g.members.length
    · simp [approveExpenseSocket, hfind, hout, hg, hthr, countApprovedEvents]
    · cases happ : e.approved with
      | true =>
        simp [approveExpenseSocket, hfind, hout, hg, hthr, countApprovedEvents, happ]
      | false =>
        simp [approveExpenseSocket, hfind, hout, hg, hthr, countApprovedEvents, happ]

/-- Witness for the amended C2: expense 30 is already approved, yet the cast
by the new approver 3 emits expenseApproved once more. -/
theorem expenseApproved_emission_witness :
    countApprovedEvents (approveExpenseSocket wStateApproved (some 30) (some 3)).2
      = if wExpenseApproved.approvals.contains 3 then 0
        else if wExpenseApproved.approved
               || decide (wExpenseApproved.approvals.length + 1
                    ≥ approvalThreshold wGroup3.members.length)
             then 1 else 0 :=
  expenseApproved_emission wStateApproved 30 3 wExpenseApproved wGroup3
    (by decide) (by decide)

/-- C9: every operation's failure response lies inside the spec's taxonomy
(400 InvalidArgument, 404 NotFound, 409 Conflict, 500 StorageUnavailable);
in particular a castApproval on an expense whose owning group record is
missing raises a TypeError in the body which the `try/catch` converts into
the 500 response with the store unchanged, never an unhandled fault. -/
theorem operations_total_over_taxonomy :
    (∀ (s : ServerState) (op : Op) (err : HttpError), opError s op = some err →
      err.kind = ErrorKind.notFound ∨ err.kind = ErrorKind.invalidArgument ∨
      err.kind = ErrorKind.conflict ∨ err.kind = ErrorKind.storageUnavailable)
  ∧ (∀ (s : ServerState) (eid uid : Id) (e : Expense),
      findById eid s.expenses = some e →
      findById e.groupId s.groups = none →
      castApprovalBody s (some eid) (some uid)
          = .error (.typeError "Cannot read properties of null reading members")
        ∧ castApproval s (some eid) (some uid)
          = (.error (.serverError "Server error"), s)) := by
  constructor
  · intro s op err _
    cases err <;> simp [HttpError.kind]
  · intro s eid uid e hfind hg
    by_cases hdup : e.approvals.contains uid = true
    · have hin : uid ∈ e.approvals := by simpa [List.contains] using hdup
      constructor <;> simp [castApproval, castApprovalBody, hfind, hin, hg]
    · have hout : uid ∉ e.approvals := by simpa [List.contains] using hdup
      constructor <;> simp [castApproval, castApprovalBody, hfind, hout, hg]

/-- Witness for C9 at the dangling-group store: the 500 error of the catch
and its StorageUnavailable classification, at concrete inputs. -/
theorem operations_total_over_taxonomy_witness :
    ((HttpError.serverError "Server error").kind = ErrorKind.notFound ∨
     (HttpError.serverError "Server error").kind = ErrorKind.invalidArgument ∨
     (HttpError.serverError "Server error").kind = ErrorKind.conflict ∨
     (HttpError.serverError "Server error").kind = ErrorKind.storageUnavailable)
  ∧ (castApprovalBody wStateDangling (some 30) (some 1)
       = .error (.typeError "Cannot read properties of null reading members")
     ∧ castApproval wStateDangling (some 30) (some 1)
       = (.error (.serverError "Server error"), wStateDangling)) :=
  ⟨operations_total_over_taxonomy.1 wStateDangling
     (.castApprovalOp (some 30) (some 1)) (.serverError "Server error") (by decide),
   operations_total_over_taxonomy.2 wStateDangling 30 1 wExpense
     (by decide) (by decide)⟩

/-- Saving a document whose approved flag cannot have dropped preserves the
approved-flag invariant of any stored expense. -/
theorem monotone_save_step (exps : List (Id × Expense)) (eid eid2 : Id)
    (e e0 e2v : Expense)
    (hfind : findById eid exps = some e) (happ : e.approved = true)
    (hfind2 : findById eid2 exps = some e0)
    (hpres : e0.approved = true → e2v.approved = true) :
    ∃ e2, findById eid (saveById eid2 e2v exps) = some e2
      ∧ e2.approved = true := by
  by_cases heq : eid2 = eid
  · subst heq
    have he : e0 = e := by
      rw [hfind2] at hfind
      exact Option.some.inj hfind
    refine ⟨e2v, ?_, hpres (by rw [he]; exact happ)⟩
    rw [findById_saveById_self, hfind2]
    rfl
  · refine ⟨e, ?_, happ⟩
    rw [findById_saveById_ne _ _ _ _ (fun hh => heq hh.symm)]
    exact hfind

/-- C4: the approved flag of a stored expense is monotonic — whatever single
operation of the system runs next (group creation, join request, join
approval, expense submission, or an approval cast through the REST or the
socket handler), an expense stored with approved = true is afterwards still
stored with approved = true; no operation ever resets the flag. -/
theorem approved_monotonic (s : ServerState) (op : Op) (eid : Id) (e : Expense)
    (hfind : findById eid s.expenses = some e) (happ : e.approved = true) :
    ∃ e2, findById eid (applyOp s op).expenses = some e2
      ∧ e2.approved = true := by
  cases op with
  | createGroupOp n u c gNew =>
    have hexp : (createGroup s n u c gNew).2.expenses = s.expenses := by
      rcases n with _ | nm
      · rfl
      · rcases u with _ | uid
        · rfl
        · by_cases hnm : nm = ""
          · simp [createGroup, hnm]
          · cases hu : findById uid s.users with
            | none => simp [createGroup, hnm, hu]
            | some u0 =>
              by_cases hcoll : s.groups.any (fun p => p.2.joinCode = c 0) = true
              · simp [createGroup, hnm, hu, hcoll]
              · simp [createGroup, hnm, hu, hcoll]
    refine ⟨e, ?_, happ⟩
    show findById eid (createGroup s n u c gNew).2.expenses = some e
    rw [hexp]
    exact hfind
  | requestJoinOp jc u =>
    have hexp : (requestJoin s jc u).2.expenses = s.expenses := by
      rcases jc with _ | code
      · rfl
      · rcases u with _ | uid
        · rfl
        · by_cases hc : code = ""
          · simp [requestJoin, hc]
          · cases hgr : findByJoinCode code s.groups with
            | none => simp [requestJoin, hc, hgr]
            | some p =>
              obtain ⟨gid, g⟩ := p
              cases hu : findById uid s.users with
              | none => simp [requestJoin, hc, hgr, hu]
              | some u0 =>
                by_cases hmem : uid ∈ g.members
                · simp [requestJoin, hc, hgr, hu, hmem]
                · by_cases hreq : uid ∈ g.joinRequests
                  · simp [requestJoin, hc, hgr, hu, hmem, hreq]
                  · simp [requestJoin, hc, hgr, hu, hmem, hreq]
    refine ⟨e, ?_, happ⟩
    show findById eid (requestJoin s jc u).2.expenses = some e
    rw [hexp]
    exact hfind
  | approveJoinOp gOpt uid =>
    have hexp : (approveJoin s gOpt uid).2.expenses = s.expenses := by
      rcases gOpt with _ | gid
      · rfl
      · cases hgr : findById gid s.groups with
        | none => simp [approveJoin, hgr]
        | some g =>
          by_cases hmem : uid ∈ g.members
          · simp [approveJoin, hgr, hmem]
          · simp [approveJoin, hgr, hmem]
    refine ⟨e, ?_, happ⟩
    show findById eid (approveJoin s gOpt uid).2.expenses = some e
    rw [hexp]
    exact hfind
  | submitExpenseOp gOpt aOpt d am n =>
    rcases gOpt with _ | gid
    · exact ⟨e, hfind, happ⟩
    · rcases aOpt with _ | uid
      · exact ⟨e, hfind, happ⟩
      · rcases am with _ | a
        · exact ⟨e, hfind, happ⟩
        · by_cases ha : a = 0
          · subst ha
            exact ⟨e, hfind, happ⟩
          · refine ⟨e, ?_, happ⟩
            show findById eid
              (submitExpense s (some gid) (some uid) d (some a) n).2.expenses
                = some e
            simp only [submitExpense, if_neg ha]
            exact findById_append_of_some _ _ _ _ hfind
  | castApprovalOp eOpt uOpt =>
    rcases eOpt with _ | eid2
    · exact ⟨e, hfind, happ⟩
    · rcases uOpt with _ | uid
      · exact ⟨e, hfind, happ⟩
      · cases hfind2 : findById eid2 s.expenses with
        | none =>
          refine ⟨e, ?_, happ⟩
          show findById eid (castApproval s (some eid2) (some uid)).2.expenses
            = some e
          simp [castApproval, castApprovalBody, hfind2]
          exact hfind
        | some e0 =>
          by_cases hdup : uid ∈ e0.approvals
          · cases hg2 : findById e0.groupId s.groups with
            | none =>
              refine ⟨e, ?_, happ⟩
              show findById eid (castApproval s (some eid2) (some uid)).2.expenses
                = some e
              simp [castApproval, castApprovalBody, hfind2, hdup, hg2]
              exact hfind
            | some g =>
              by_cases hthr :
                  e0.approvals.length ≥ approvalThreshold g.members.length
              · have hstep : (castApproval s (some eid2) (some uid)).2
                    = { s with expenses :=
                        saveById eid2 { e0 with approved := true } s.expenses } := by
                  simp [castApproval, castApprovalBody, hfind2, hdup, hg2, hthr]
                show ∃ e2,
                  findById eid (castApproval s (some eid2) (some uid)).2.expenses
                    = some e2 ∧ e2.approved = true
                rw [hstep]
                exact monotone_save_step s.expenses eid eid2 e e0 _
                  hfind happ hfind2 (fun _ => rfl)
              · have hstep : (castApproval s (some eid2) (some uid)).2
                    = { s with expenses := saveById eid2 e0 s.expenses } := by
                  simp [castApproval, castApprovalBody, hfind2, hdup, hg2, hthr]
                show ∃ e2,
                  findById eid (castApproval s (some eid2) (some uid)).2.expenses
                    = some e2 ∧ e2.approved = true
                rw [hstep]
                exact monotone_save_step s.expenses eid eid2 e e0 _
                  hfind happ hfind2 (fun h => h)
          · cases hg2 : findById e0.groupId s.groups with
            | none =>
              refine ⟨e, ?_, happ⟩
              show findById eid (castApproval s (some eid2) (some uid)).2.expenses
                = some e
              simp [castApproval, castApprovalBody, hfind2, hdup, hg2]
              exact hfind
            | some g =>
              by_cases hthr :
                  e0.approvals.length + 1 ≥ approvalThreshold g.members.length
              · have hstep : (castApproval s (some eid2) (some uid)).2
                    = { s with expenses :=
                        saveById eid2 { e0 with approvals := e0.approvals ++ [uid],
                                                approved := true } s.expenses } := by
                  simp [castApproval, castApprovalBody, hfind2, hdup, hg2, hthr]
                show ∃ e2,
                  findById eid (castApproval s (some eid2) (some uid)).2.expenses
                    = some e2 ∧ e2.approved = true
                rw [hstep]
                exact monotone_save_step s.expenses eid eid2 e e0 _
                  hfind happ hfind2 (fun _ => rfl)
              · have hstep : (castApproval s (some eid2) (some uid)).2
                    = { s with expenses :=
                        (saveById eid2 { e0 with approvals := e0.approvals ++ [uid] }
                          s.expenses) } := by
                  simp [castApproval, castApprovalBody, hfind2, hdup, hg2, hthr]
                show ∃ e2,
                  findById eid (castApproval s (some eid2) (some uid)).2.expenses
                    = some e2 ∧ e2.approved = true
                rw [hstep]
                exact monotone_save_step s.expenses eid eid2 e e0 _
                  hfind happ hfind2 (fun h => h)
  | approveExpenseSocketOp eOpt uOpt =>
    rcases eOpt with _ | eid2
    · exact ⟨e, hfind, happ⟩
    · rcases uOpt with _ | uid
      · exact ⟨e, hfind, happ⟩
      · cases hfind2 : findById eid2 s.expenses with
        | none =>
          refine ⟨e, ?_, happ⟩
          show findById eid (approveExpenseSocket s (some eid2) (some uid)).1.expenses
            = some e
          simp [approveExpenseSocket, hfind2]
          exact hfind
        | some e0 =>
          by_cases hdup : uid ∈ e0.approvals
          · refine ⟨e, ?_, happ⟩
            show findById eid (approveExpenseSocket s (some eid2) (some uid)).1.expenses
              = some e
            simp [approveExpenseSocket, hfind2, hdup]
            exact hfind
          · cases hg2 : findById e0.groupId s.groups with
            | none =>
              refine ⟨e, ?_, happ⟩
              show findById eid
                (approveExpenseSocket s (some eid2) (some uid)).1.expenses = some e
              simp [approveExpenseSocket, hfind2, hdup, hg2]
              exact hfind
            | some g =>
              by_cases hthr :
                  e0.approvals.length + 1 ≥ approvalThreshold g.members.length
              · have hstep : (approveExpenseSocket s (some eid2) (some uid)).1
                    = { s with expenses :=
                        saveById eid2 { e0 with approvals := e0.approvals ++ [uid],
                                                approved := true } s.expenses } := by
                  simp [approveExpenseSocket, hfind2, hdup, hg2, hthr]
                show ∃ e2,
                  findById eid (approveExpenseSocket s (some eid2) (some uid)).1.expenses
                    = some e2 ∧ e2.approved = true
                rw [hstep]
                exact monotone_save_step s.expenses eid eid2 e e0 _
                  hfind happ hfind2 (fun _ => rfl)
              · have hstep : (approveExpenseSocket s (some eid2) (some uid)).1
                    = { s with expenses :=
                        (saveById eid2 { e0 with approvals := e0.approvals ++ [uid] }
                          s.expenses) } := by
                  simp [approveExpenseSocket, hfind2, hdup, hg2, hthr]
                show ∃ e2,
                  findById eid (approveExpenseSocket s (some eid2) (some uid)).1.expenses
                    = some e2 ∧ e2.approved = true
                rw [hstep]
                exact monotone_save_step s.expenses eid eid2 e e0 _
                  hfind happ hfind2 (fun h => h)

/-- Witness for C4: a further approval cast on the already-approved expense
30 leaves it stored with approved = true. -/
theorem approved_monotonic_witness :
    ∃ e2, findById 30
        (applyOp wStateApproved (.castApprovalOp (some 30) (some 3))).expenses
        = some e2
      ∧ e2.approved = true :=
  approved_monotonic wStateApproved (.castApprovalOp (some 30) (some 3)) 30
    wExpenseApproved (by decide) (by decide)

/-- C3: castApproval is idempotent per user — (a) for every store and every
request, running the identical cast twice in succession leaves exactly the
store of running it once (the comparison covers the error paths as well);
(b) when the user is already in the approval set and the expense and its
group exist, the call is a silent no-op answering success with the
unchanged approval set rather than an error; and (c) a success response
never carries the approving user more than once in the approval set, so a
duplicate cast is never double-counted. -/
theorem castApproval_idempotent :
    (∀ (s : ServerState) (expenseId userId : Option Id),
      (castApproval ((castApproval s expenseId userId).2) expenseId userId).2
        = (castApproval s expenseId userId).2)
  ∧ (∀ (s : ServerState) (eid uid : Id) (e : Expense) (g : Group),
      findById eid s.expenses = some e →
      e.approvals.contains uid = true →
      findById e.groupId s.groups = some g →
      ∃ e2, (castApproval s (some eid) (some uid)).1 = .ok e2
        ∧ e2.approvals = e.approvals)
  ∧ (∀ (s : ServerState) (eid uid : Id) (e e2 : Expense),
      findById eid s.expenses = some e →
      e.approvals.count uid ≤ 1 →
      (castApproval s (some eid) (some uid)).1 = .ok e2 →
      e2.approvals.count uid ≤ 1) := by
  refine ⟨?_, ?_, ?_⟩
  · intro s expenseId userId
    rcases expenseId with _ | eid
    · rfl
    · rcases userId with _ | uid
      · rfl
      · cases hfind : findById eid s.expenses with
        | none =>
          have h1 : castApproval s (some eid) (some uid)
              = (.error (.notFound "Expense not found"), s) := by
            simp [castApproval, castApprovalBody, hfind]
          simp [h1]
        | some e0 =>
          by_cases hdup : uid ∈ e0.approvals
          · cases hg : findById e0.groupId s.groups with
            | none =>
              have h1 : castApproval s (some eid) (some uid)
                  = (.error (.serverError "Server error"), s) := by
                simp [castApproval, castApprovalBody, hfind, hdup, hg]
              simp [h1]
            | some g =>
              by_cases hthr :
                  e0.approvals.length ≥ approvalThreshold g.members.length
              · have h1 : castApproval s (some eid) (some uid)
                    = (.ok { e0 with approved := true }, { s with expenses := saveById eid { e0 with approved := true } s.expenses }) := by
                  simp [castApproval, castApprovalBody, hfind, hdup, hg, hthr]
                have hf2 : findById eid (saveById eid { e0 with approved := true } s.expenses) = some { e0 with approved := true } := by
                  rw [findById_saveById_self, hfind]
                  rfl
                have h2 : castApproval { s with expenses := saveById eid { e0 with approved := true } s.expenses } (some eid) (some uid)
                    = (.ok { e0 with approved := true }, { s with expenses := saveById eid { e0 with approved := true } (saveById eid { e0 with approved := true } s.expenses) }) := by
                  simp [castApproval, castApprovalBody, hf2, hdup, hg, hthr]
                simp [h1, h2, saveById_saveById]
              · have h1 : castApproval s (some eid) (some uid)
                    = (.ok e0, { s with expenses := saveById eid e0 s.expenses }) := by
                  simp [castApproval, castApprovalBody, hfind, hdup, hg, hthr]
                have hf2 : findById eid (saveById eid e0 s.expenses) = some e0 := by
                  rw [findById_saveById_self, hfind]
                  rfl
                have h2 : castApproval { s with expenses := saveById eid e0 s.expenses } (some eid) (some uid)
                    = (.ok e0, { s with expenses := saveById eid e0 (saveById eid e0 s.expenses) }) := by
                  simp [castApproval, castApprovalBody, hf2, hdup, hg, hthr]
                simp [h1, h2, saveById_saveById]
          · have hdup2 : uid ∈ e0.approvals ++ [uid] :=
              List.mem_append_right _ (List.mem_cons_self uid [])
            cases hg : findById e0.groupId s.groups with
            | none =>
              have h1 : castApproval s (some eid) (some uid)
                  = (.error (.serverError "Server error"), s) := by
                simp [castApproval, castApprovalBody, hfind, hdup, hg]
              simp [h1]
            | some g =>
              by_cases hthr :
                  e0.approvals.length + 1 ≥ approvalThreshold g.members.length
              · have h1 : castApproval s (some eid) (some uid)
                    = (.ok { e0 with approvals := e0.approvals ++ [uid], approved := true }, { s with expenses := saveById eid { e0 with approvals := e0.approvals ++ [uid], approved := true } s.expenses }) := by
                  simp [castApproval, castApprovalBody, hfind, hdup, hg, hthr]
                have hf2 : findById eid (saveById eid { e0 with approvals := e0.approvals ++ [uid], approved := true } s.expenses) = some { e0 with approvals := e0.approvals ++ [uid], approved := true } := by
                  rw [findById_saveById_self, hfind]
                  rfl
                have h2 : castApproval { s with expenses := saveById eid { e0 with approvals := e0.approvals ++ [uid], approved := true } s.expenses } (some eid) (some uid)
                    = (.ok { e0 with approvals := e0.approvals ++ [uid], approved := true }, { s with expenses := saveById eid { e0 with approvals := e0.approvals ++ [uid], approved := true } (saveById eid { e0 with approvals := e0.approvals ++ [uid], approved := true } s.expenses) }) := by
                  simp [castApproval, castApprovalBody, hf2, hdup2, hg, hthr]
                simp [h1, h2, saveById_saveById]
              · have h1 : castApproval s (some eid) (some uid)
                    = (.ok { e0 with approvals := e0.approvals ++ [uid] }, { s with expenses := saveById eid { e0 with approvals := e0.approvals ++ [uid] } s.expenses }) := by
                  simp [castApproval, castApprovalBody, hfind, hdup, hg, hthr]
                have hf2 : findById eid (saveById eid { e0 with approvals := e0.approvals ++ [uid] } s.expenses) = some { e0 with approvals := e0.approvals ++ [uid] } := by
                  rw [findById_saveById_self, hfind]
                  rfl
                have h2 : castApproval { s with expenses := saveById eid { e0 with approvals := e0.approvals ++ [uid] } s.expenses } (some eid) (some uid)
                    = (.ok { e0 with approvals := e0.approvals ++ [uid] }, { s with expenses := saveById eid { e0 with approvals := e0.approvals ++ [uid] } (saveById eid { e0 with approvals := e0.approvals ++ [uid] } s.expenses) }) := by
                  simp [castApproval, castApprovalBody, hf2, hdup2, hg, hthr]
                simp [h1, h2, saveById_saveById]
  · intro s eid uid e g hfind hdup hg
    have hin : uid ∈ e.approvals := by simpa [List.contains] using hdup
    by_cases hthr : e.approvals.length ≥ approvalThreshold g.members.length
    · exact ⟨{ e with approved := true },
        by simp [castApproval, castApprovalBody, hfind, hin, hg, hthr], rfl⟩
    · exact ⟨e,
        by simp [castApproval, castApprovalBody, hfind, hin, hg, hthr], rfl⟩
  · intro s eid uid e e2 hfind hcount hok
    by_cases hdup : uid ∈ e.approvals
    · cases hg : findById e.groupId s.groups with
      | none =>
        simp [castApproval, castApprovalBody, hfind, hdup, hg] at hok
      | some g =>
        by_cases hthr : e.approvals.length ≥ approvalThreshold g.members.length
        · simp [castApproval, castApprovalBody, hfind, hdup, hg, hthr] at hok
          rw [← hok]
          exact hcount
        · simp [castApproval, castApprovalBody, hfind, hdup, hg, hthr] at hok
          rw [← hok]
          exact hcount
    · cases hg : findById e.groupId s.groups with
      | none =>
        simp [castApproval, castApprovalBody, hfind, hdup, hg] at hok
      | some g =>
        have hzero : e.approvals.count uid = 0 := List.count_eq_zero.mpr hdup
        by_cases hthr :
            e.approvals.length + 1 ≥ approvalThreshold g.members.length
        · simp [castApproval, castApprovalBody, hfind, hdup, hg, hthr] at hok
          rw [← hok]
          show (e.approvals ++ [uid]).count uid ≤ 1
          rw [List.count_append, hzero, List.count_singleton_self]
        · simp [castApproval, castApprovalBody, hfind, hdup, hg, hthr] at hok
          rw [← hok]
          show (e.approvals ++ [uid]).count uid ≤ 1
          rw [List.count_append, hzero, List.count_singleton_self]

/-- Witness for C3: the double cast by user 1 on expense 30 equals the
single cast; the duplicate cast by user 1 on the already-approved expense
answers success with the unchanged approval set; and the returned approval
set still holds user 1 exactly once. -/
theorem castApproval_idempotent_witness :
    ((castApproval ((castApproval wState3 (some 30) (some 1)).2)
        (some 30) (some 1)).2
      = (castApproval wState3 (some 30) (some 1)).2)
  ∧ (∃ e2, (castApproval wStateApproved (some 30) (some 1)).1 = .ok e2
      ∧ e2.approvals = wExpenseApproved.approvals)
  ∧ wExpenseApproved.approvals.count 1 ≤ 1 :=
  ⟨castApproval_idempotent.1 wState3 (some 30) (some 1),
   castApproval_idempotent.2.1 wStateApproved 30 1 wExpenseApproved wGroup3
     (by decide) (by decide) (by decide),
   castApproval_idempotent.2.2 wStateApproved 30 1 wExpenseApproved
     wExpenseApproved (by decide) (by decide) rfl⟩
